import Mathlib

/-!
Shallow embedding of `captain` (src/main.go): a remote-command tool in which
an operator signs a command with a key derived from a shared secret, posts it
to a relay over HTTP, and agents poll the relay, verify, deduplicate and
execute.

Modelling conventions:
* Byte strings (`[]byte`, and Go strings viewed through `[]byte(s)`) are
  `List Nat` of byte values.
* Timestamps (`time.Time`) are `Int` values in nanoseconds since the Unix
  epoch (`UnixNano`); durations (`time.Duration`) are `Int` nanoseconds.
  `time.Since(t)` at verification time `now` is `now - t` (the Go
  `Duration` saturation at ±2^63-1 ns, reached only for spans of centuries,
  is not modelled).
* The keyed blake3 hasher (external library `lukechampine.com/blake3`,
  created once as `blake3.New(32, blake3.Sum256(secret))`) is abstracted as a
  function `H : List Nat → List Nat` from the full byte stream written
  between `Reset` and `Sum` to the digest.  The hasher object itself, with
  its `Reset`/`Write`/`Sum` interface, is embedded as `Hasher` below so that
  the write order of `signCmd`/`signLog` is taken from the source.
* JSON encoding/decoding (`encoding/json`, external) is abstracted as
  parameters `dec` (returning `Except String` like Go's error-or-value) and
  `marshal` (total: `json.Marshal` cannot fail on these field types for any
  value reachable from a successful decode, and the handler's marshal-error
  branch is therefore not reachable in the embedding).
-/

/-- Command message, `type cmd struct` (src/main.go:26-31).  `Name` and each
element of `Args` are byte strings; `Sum` is the hex-encoded digest kept as a
`String` exactly as in the source. -/
structure cmd where
  Name : List Nat
  Args : List (List Nat)
  Created : Int
  Sum : String
deriving DecidableEq, Repr

/-- Log message, `type log struct` (src/main.go:33-36). -/
structure log where
  Msg : List Nat
  Sum : String
  Created : Int
deriving DecidableEq, Repr

/-- Relay state, `type app struct` (src/main.go:21-24): the single stored
payload slot (`nil`/empty before the first accepted command).  The `key` and
`hasher` fields are carried by the abstract digest parameter `H` instead. -/
structure app where
  payload : List Nat
deriving DecidableEq, Repr

/-- The 8-byte little-endian encoding of a natural number (Go
`binary.LittleEndian.PutUint64`, src/main.go:251). -/
def le64 (n : Nat) : List Nat :=
  [n % 256, n / 256 % 256, n / 256 ^ 2 % 256, n / 256 ^ 3 % 256,
   n / 256 ^ 4 % 256, n / 256 ^ 5 % 256, n / 256 ^ 6 % 256, n / 256 ^ 7 % 256]

/-- `ttb` (src/main.go:248-253): `milli := t.UnixNano() / 1000000` (Go `/` on
`int64` truncates toward zero, hence `Int.tdiv`), then `uint64(milli)` (the
two's-complement reinterpretation, i.e. reduction mod 2^64) written
little-endian into 8 bytes. -/
def ttb (t : Int) : List Nat :=
  le64 ((Int.tdiv t 1000000 % (2 ^ 64 : Int)).toNat)

/-- Value of one hex digit, as accepted by Go `encoding/hex` (`0-9`, `a-f`,
`A-F`). -/
def hexVal (c : Char) : Option Nat :=
  if 48 ≤ c.toNat ∧ c.toNat ≤ 57 then some (c.toNat - 48)
  else if 97 ≤ c.toNat ∧ c.toNat ≤ 102 then some (c.toNat - 87)
  else if 65 ≤ c.toNat ∧ c.toNat ≤ 70 then some (c.toNat - 55)
  else none

/-- Go `hex.DecodeString`: fails on an odd-length input or any non-hex digit,
otherwise decodes consecutive digit pairs most-significant digit first.
`none` stands for the Go error (whose message — odd length vs invalid byte —
is not needed by any claim). -/
def hexDecode : List Char → Option (List Nat)
  | [] => some []
  | [_] => none
  | a :: b :: rest =>
    match hexVal a, hexVal b, hexDecode rest with
    | some hi, some lo, some r => some ((hi * 16 + lo) :: r)
    | _, _, _ => none

/-- The keyed hasher object: `Reset` clears the internal state back to the
keyed initial state, `Write` appends bytes, `Sum(nil)` applies the keyed
digest `H` to everything written since the last reset. -/
structure Hasher where
  buf : List Nat

def Hasher.reset (_ : Hasher) : Hasher := ⟨[]⟩

def Hasher.write (h : Hasher) (b : List Nat) : Hasher := ⟨h.buf ++ b⟩

def Hasher.sum (H : List Nat → List Nat) (h : Hasher) : List Nat := H h.buf

/-- `signCmd` (src/main.go:203-211): reset, write `ttb(Created)`, write
`Name`, write each argument in order, return the digest. -/
def signCmd (H : List Nat → List Nat) (c : cmd) : List Nat :=
  Hasher.sum H
    (c.Args.foldl (fun h arg => h.write arg)
      (((Hasher.reset ⟨[]⟩).write (ttb c.Created)).write c.Name))

/-- The byte stream fed to the keyed digest by `signCmd` (the hasher buffer
at `Sum` time). -/
def streamCmd (c : cmd) : List Nat :=
  (c.Args.foldl (fun h arg => h.write arg)
    (((Hasher.reset ⟨[]⟩).write (ttb c.Created)).write c.Name)).buf

/-- `signLog` (src/main.go:227-232): reset, write `ttb(Created)`, write
`Msg`, return the digest. -/
def signLog (H : List Nat → List Nat) (l : log) : List Nat :=
  Hasher.sum H (((Hasher.reset ⟨[]⟩).write (ttb l.Created)).write l.Msg)

/-- The three verification failures, with the Go error text each produces
(the hex-decode failure is wrapped as
`"failed to decode sig hex: <hex library detail>"` in the source; the
varying detail is omitted). -/
inductive VErr where
  | expired
  | malformedSig
  | invalidSig
deriving DecidableEq, Repr

def VErr.msg : VErr → String
  | .expired => "payload expired"
  | .malformedSig => "failed to decode sig hex"
  | .invalidSig => "invalid checksum"

/-- `verifyCmd` (src/main.go:213-225): reject if `now - Created > ttl`
(`payload expired`), then if the `Sum` hex fails to decode, then if the
decoded bytes differ from the recomputed digest; `none` is the nil error. -/
def verifyCmd (H : List Nat → List Nat) (now ttl : Int) (c : cmd) : Option VErr :=
  if now - c.Created > ttl then some .expired
  else
    match hexDecode c.Sum.data with
    | none => some .malformedSig
    | some csum => if signCmd H c = csum then none else some .invalidSig

/-- `verifyLog` (src/main.go:234-246): same checks for a log entry. -/
def verifyLog (H : List Nat → List Nat) (now ttl : Int) (l : log) : Option VErr :=
  if now - l.Created > ttl then some .expired
  else
    match hexDecode l.Sum.data with
    | none => some .malformedSig
    | some lsum => if signLog H l = lsum then none else some .invalidSig

/-- HTTP response body: raw bytes written with `w.Write` (the GET path and
the empty default body), or text (the `"ok"` acknowledgement and
`http.Error` messages). -/
inductive RBody where
  | raw (b : List Nat)
  | txt (s : String)
deriving DecidableEq, Repr

/-- HTTP response: status and body.  A handler that returns without writing
produces Go's default `200` with an empty body. -/
structure Resp where
  status : Nat
  body : RBody
deriving DecidableEq, Repr

/-- Go `http.Error(w, msg, code)`: sets the status and writes the message
followed by a newline. -/
def httpError (msg : String) (code : Nat) : Resp :=
  ⟨code, .txt (msg ++ "\n")⟩

/-- An HTTP request as seen by `ServeHTTP`: method, URL path, body bytes. -/
structure Request where
  method : String
  path : String
  reqBody : List Nat
deriving DecidableEq, Repr

/-- `handlePostCmd` (src/main.go:165-184): decode the body (`500` with the
decoder's message on failure), verify against the fixed 200 ms TTL
(2*10^8 ns; `401` with the reason on failure), then store the re-serialized
command and answer `"ok"`.  On both failure paths the handler returns before
touching `a.payload`. -/
def handlePostCmd (dec : List Nat → Except String cmd) (marshal : cmd → List Nat)
    (H : List Nat → List Nat) (now : Int) (a : app) (body : List Nat) : app × Resp :=
  match dec body with
  | .error e => (a, httpError e 500)
  | .ok c =>
    match verifyCmd H now 200000000 c with
    | some err => (a, httpError err.msg 401)
    | none => (⟨marshal c⟩, ⟨200, .txt "ok"⟩)

/-- `handlePostLog` (src/main.go:186-201): decode (`500` on failure), verify
against the 200 ms TTL (`401` on failure), answer `"ok"` and print the entry;
the relay state is never modified. -/
def handlePostLog (decL : List Nat → Except String log)
    (H : List Nat → List Nat) (now : Int) (a : app) (body : List Nat) : app × Resp :=
  match decL body with
  | .error e => (a, httpError e 500)
  | .ok l =>
    match verifyLog H now 200000000 l with
    | some err => (a, httpError err.msg 401)
    | none => (a, ⟨200, .txt "ok"⟩)

/-- `ServeHTTP` (src/main.go:151-163): `GET` (any path) writes the stored
payload; `POST` dispatches on the path to the two handlers; any other
method, or a `POST` to an unknown path, falls through both switches and
returns Go's default empty `200`. -/
def serveHTTP (dec : List Nat → Except String cmd) (decL : List Nat → Except String log)
    (marshal : cmd → List Nat) (H : List Nat → List Nat) (now : Int)
    (a : app) (r : Request) : app × Resp :=
  if r.method = "GET" then (a, ⟨200, .raw a.payload⟩)
  else if r.method = "POST" then
    if r.path = "/cmd" then handlePostCmd dec marshal H now a r.reqBody
    else if r.path = "/log" then handlePostLog decL H now a r.reqBody
    else (a, ⟨200, .raw []⟩)
  else (a, ⟨200, .raw []⟩)

/-- Outcome of the agent's `http.Get` of the relay: a transport error, or a
response body. -/
inductive FetchR where
  | transportErr
  | body (b : List Nat)
deriving DecidableEq, Repr

/-- One iteration of the obey loop (src/main.go:60-100) after the sleep,
acting on the dedup state `lastSum` (initially `[]`: Go's nil slice, which
`bytes.Equal` treats as the empty byte string).  Returns the new `lastSum`
and the command handed to the external process executor (`none` when the
iteration `continue`s without executing).  Order from the source: transport
error, JSON decode error, `Sum` hex decode error, dedup against `lastSum`,
`verifyCmd` with the poll interval as TTL, then `lastSum = csum` followed by
execution and best-effort log posting (the posting is outside the agent
state and not modelled). -/
def obeyStep (dec : List Nat → Except String cmd) (H : List Nat → List Nat)
    (now poll : Int) (lastSum : List Nat) (f : FetchR) : List Nat × Option cmd :=
  match f with
  | .transportErr => (lastSum, none)
  | .body b =>
    match dec b with
    | .error _ => (lastSum, none)
    | .ok c =>
      match hexDecode c.Sum.data with
      | none => (lastSum, none)
      | some csum =>
        if csum = lastSum then (lastSum, none)
        else
          match verifyCmd H now poll c with
          | some _ => (lastSum, none)
          | none => (csum, some c)

/-! Helper lemmas about the hasher byte stream. -/

lemma foldl_write_buf (args : List (List Nat)) (h : Hasher) :
    (args.foldl (fun h arg => h.write arg) h).buf = h.buf ++ args.flatten := by
  induction args generalizing h with
  | nil => simp
  | cons a t ih =>
    rw [List.foldl_cons, ih]
    simp [Hasher.write, List.append_assoc]

lemma streamCmd_eq (c : cmd) :
    streamCmd c = ttb c.Created ++ c.Name ++ c.Args.flatten := by
  unfold streamCmd
  rw [foldl_write_buf]
  simp [Hasher.reset, Hasher.write]

lemma signCmd_eq_stream (H : List Nat → List Nat) (c : cmd) :
    signCmd H c = H (streamCmd c) := rfl

lemma signLog_eq_stream (H : List Nat → List Nat) (l : log) :
    signLog H l = H (ttb l.Created ++ l.Msg) := rfl

lemma flatten_set_cancel (l : List (List Nat)) (i : Nat) (hi : i < l.length)
    (a : List Nat) (h : (l.set i a).flatten = l.flatten) : a = l.get ⟨i, hi⟩ := by
  induction l generalizing i with
  | nil => exact absurd hi (by simp)
  | cons hd tl ih =>
    cases i with
    | zero =>
      simp only [List.set, List.flatten_cons, List.get] at h ⊢
      exact List.append_cancel_right h
    | succ j =>
      simp only [List.set, List.flatten_cons, List.get] at h ⊢
      exact ih j (by simpa using hi) (List.append_cancel_left h)

/-! Concrete objects used by witnesses and counterexamples. -/

/-- A digest function for witnesses: constant empty output. -/
def H0 : List Nat → List Nat := fun _ => []

/-- A digest function with 32-byte output, for witnesses about digest length. -/
def H32 : List Nat → List Nat := fun _ => List.replicate 32 0

/-- Command with Name `"ab"` (bytes 97 98) and no arguments. -/
def cmdAB : cmd := ⟨[97, 98], [], 0, ""⟩

/-- Command with Name `"a"` and the single argument `"b"`. -/
def cmdA_B : cmd := ⟨[97], [[98]], 0, ""⟩

/-- Command created at Unix nanosecond 0. -/
def cmdT0 : cmd := ⟨[], [], 0, ""⟩

/-- The same command created one nanosecond later, inside the same
millisecond. -/
def cmdT1 : cmd := ⟨[], [], 1, ""⟩

/-- C2: `signCmd` feeds the keyed digest, in strict fixed order, the 8-byte
little-endian millisecond timestamp, then the `Name` bytes, then each
argument in sequence order (`signLog` likewise with `Msg`); when the digest
function returns 32 bytes the signature is 32 bytes; and the digest is a
pure function of exactly these fields — in particular it ignores the `Sum`
field. -/
theorem sign_stream_order (H : List Nat → List Nat) (c : cmd) (l : log) :
    signCmd H c = H (ttb c.Created ++ c.Name ++ c.Args.flatten) ∧
    signLog H l = H (ttb l.Created ++ l.Msg) ∧
    (ttb c.Created).length = 8 ∧
    ((∀ s, (H s).length = 32) →
      (signCmd H c).length = 32 ∧ (signLog H l).length = 32) ∧
    (∀ s₂ : String, signCmd H { c with Sum := s₂ } = signCmd H c) := by
  refine ⟨?_, rfl, ?_, ?_, ?_⟩
  · rw [signCmd_eq_stream, streamCmd_eq]
  · simp [ttb, le64]
  · intro h32
    exact ⟨h32 _, h32 _⟩
  · intro s₂
    rfl

/-- Witness for C2 at concrete inputs. -/
theorem sign_stream_order_witness :
    signCmd H32 cmdAB = H32 (ttb 0 ++ [97, 98] ++ []) ∧
    (signCmd H32 cmdAB).length = 32 := by
  have h := sign_stream_order H32 cmdAB ⟨[], "", 0⟩
  exact ⟨h.1, (h.2.2.2.1 (fun s => by simp [H32])).1⟩

/-- C3 counterexample: two Commands that differ in exactly one field — the
creation time, by one nanosecond inside the same millisecond — feed the
identical byte stream to the keyed digest (so `sign` returns the same
signature); and the claim's own example pair, Name `"ab"` with no arguments
versus Name `"a"` with arguments `["b"]`, also feeds identical streams. -/
theorem sign_single_field_collision :
    streamCmd cmdT0 = streamCmd cmdT1 ∧
    cmdT0.Created ≠ cmdT1.Created ∧
    cmdT0.Name = cmdT1.Name ∧ cmdT0.Args = cmdT1.Args ∧ cmdT0.Sum = cmdT1.Sum ∧
    signCmd H0 cmdT0 = signCmd H0 cmdT1 ∧
    streamCmd cmdAB = streamCmd cmdA_B ∧
    cmdAB ≠ cmdA_B := by
  exact ⟨by decide, by decide, rfl, rfl, rfl, rfl, by decide, by decide⟩

/-- C3 amended: mutating the `Name` or any single argument of a Command
(other fields fixed) always changes the byte stream fed to the keyed digest;
mutating `Created` changes the stream exactly when it changes the 8-byte
millisecond encoding `ttb(Created)` — so two `Created` values in the same
millisecond feed the identical stream — and the signature is the digest
function applied to that stream, so a stream change is what a signature
change requires.  (Distinct name/argument COMBINATIONS can still collide, as
in the counterexample, because fields are concatenated without
separators.) -/
theorem sign_sensitivity_amended (c : cmd) :
    (∀ n, n ≠ c.Name → streamCmd { c with Name := n } ≠ streamCmd c) ∧
    (∀ (i : Nat) (hi : i < c.Args.length) (a : List Nat), a ≠ c.Args.get ⟨i, hi⟩ →
      streamCmd { c with Args := c.Args.set i a } ≠ streamCmd c) ∧
    (∀ t, streamCmd { c with Created := t } = streamCmd c ↔ ttb t = ttb c.Created) ∧
    (∀ H, signCmd H c = H (streamCmd c)) := by
  refine ⟨?_, ?_, ?_, fun H => rfl⟩
  · intro n hn heq
    rw [streamCmd_eq, streamCmd_eq] at heq
    exact hn (List.append_cancel_left (List.append_cancel_right heq))
  · intro i hi a ha heq
    rw [streamCmd_eq, streamCmd_eq] at heq
    simp only [List.append_assoc] at heq
    exact ha (flatten_set_cancel c.Args i hi a
      (List.append_cancel_left (List.append_cancel_left heq)))
  · intro t
    constructor
    · intro heq
      rw [streamCmd_eq, streamCmd_eq] at heq
      exact List.append_cancel_right (List.append_cancel_right heq)
    · intro hT
      rw [streamCmd_eq, streamCmd_eq, hT]

/-- Witness for the amended C3 at concrete inputs: changing the name of
`cmdAB` to `"ax"`, changing its (here: adding a command with one argument
and) changing that argument, and moving `Created` by a full millisecond all
change the stream, while moving `Created` by one nanosecond does not. -/
theorem sign_sensitivity_amended_witness :
    streamCmd { cmdAB with Name := [97, 120] } ≠ streamCmd cmdAB ∧
    streamCmd { cmdA_B with Args := cmdA_B.Args.set 0 [99] } ≠ streamCmd cmdA_B ∧
    (streamCmd { cmdT0 with Created := 1000000 } = streamCmd cmdT0 ↔
      ttb 1000000 = ttb 0) := by
  refine ⟨(sign_sensitivity_amended cmdAB).1 [97, 120] (by decide),
    (sign_sensitivity_amended cmdA_B).2.1 0 (by decide) [99] (by decide),
    ?_⟩
  have h := (sign_sensitivity_amended cmdT0).2.2.1 1000000
  exact h

/-! Case lemmas for `verifyCmd` / `verifyLog`. -/

lemma verifyCmd_expired (H : List Nat → List Nat) (now ttl : Int) (c : cmd)
    (h : now - c.Created > ttl) : verifyCmd H now ttl c = some .expired := by
  unfold verifyCmd
  rw [if_pos h]

lemma verifyCmd_malformed (H : List Nat → List Nat) (now ttl : Int) (c : cmd)
    (h1 : ¬now - c.Created > ttl) (h2 : hexDecode c.Sum.data = none) :
    verifyCmd H now ttl c = some .malformedSig := by
  unfold verifyCmd
  rw [if_neg h1, h2]

lemma verifyCmd_invalid (H : List Nat → List Nat) (now ttl : Int) (c : cmd)
    (s : List Nat) (h1 : ¬now - c.Created > ttl) (h2 : hexDecode c.Sum.data = some s)
    (h3 : signCmd H c ≠ s) : verifyCmd H now ttl c = some .invalidSig := by
  unfold verifyCmd
  rw [if_neg h1, h2]
  show (if signCmd H c = s then none else some VErr.invalidSig) = some VErr.invalidSig
  rw [if_neg h3]

lemma verifyCmd_ok (H : List Nat → List Nat) (now ttl : Int) (c : cmd)
    (h1 : ¬now - c.Created > ttl) (h2 : hexDecode c.Sum.data = some (signCmd H c)) :
    verifyCmd H now ttl c = none := by
  unfold verifyCmd
  rw [if_neg h1, h2]
  show (if signCmd H c = signCmd H c then none else some VErr.invalidSig) = none
  rw [if_pos rfl]

lemma verifyCmd_none_iff (H : List Nat → List Nat) (now ttl : Int) (c : cmd) :
    verifyCmd H now ttl c = none ↔
      now - c.Created ≤ ttl ∧ hexDecode c.Sum.data = some (signCmd H c) := by
  constructor
  · intro h
    by_cases h1 : now - c.Created > ttl
    · rw [verifyCmd_expired H now ttl c h1] at h
      exact absurd h (by simp)
    · cases h2 : hexDecode c.Sum.data with
      | none =>
        rw [verifyCmd_malformed H now ttl c h1 h2] at h
        exact absurd h (by simp)
      | some s =>
        by_cases h3 : signCmd H c = s
        · exact ⟨by omega, congrArg some h3.symm⟩
        · rw [verifyCmd_invalid H now ttl c s h1 h2 h3] at h
          exact absurd h (by simp)
  · rintro ⟨h1, h2⟩
    exact verifyCmd_ok H now ttl c (by omega) h2

lemma verifyCmd_fresh_iff (H : List Nat → List Nat) (now ttl : Int) (c : cmd) :
    verifyCmd H now ttl c ≠ some .expired ↔ now ≤ c.Created + ttl := by
  constructor
  · intro h
    by_contra hlt
    exact h (verifyCmd_expired H now ttl c (by omega))
  · intro h hcontra
    have h1 : ¬now - c.Created > ttl := by omega
    cases h2 : hexDecode c.Sum.data with
    | none =>
      rw [verifyCmd_malformed H now ttl c h1 h2] at hcontra
      exact absurd hcontra (by simp)
    | some s =>
      by_cases h3 : signCmd H c = s
      · rw [verifyCmd_ok H now ttl c h1 (h2.trans (congrArg some h3.symm))] at hcontra
        exact absurd hcontra (by simp)
      · rw [verifyCmd_invalid H now ttl c s h1 h2 h3] at hcontra
        exact absurd hcontra (by simp)

lemma verifyLog_expired (H : List Nat → List Nat) (now ttl : Int) (l : log)
    (h : now - l.Created > ttl) : verifyLog H now ttl l = some .expired := by
  unfold verifyLog
  rw [if_pos h]

lemma verifyLog_malformed (H : List Nat → List Nat) (now ttl : Int) (l : log)
    (h1 : ¬now - l.Created > ttl) (h2 : hexDecode l.Sum.data = none) :
    verifyLog H now ttl l = some .malformedSig := by
  unfold verifyLog
  rw [if_neg h1, h2]

lemma verifyLog_invalid (H : List Nat → List Nat) (now ttl : Int) (l : log)
    (s : List Nat) (h1 : ¬now - l.Created > ttl) (h2 : hexDecode l.Sum.data = some s)
    (h3 : signLog H l ≠ s) : verifyLog H now ttl l = some .invalidSig := by
  unfold verifyLog
  rw [if_neg h1, h2]
  show (if signLog H l = s then none else some VErr.invalidSig) = some VErr.invalidSig
  rw [if_neg h3]

lemma verifyLog_ok (H : List Nat → List Nat) (now ttl : Int) (l : log)
    (h1 : ¬now - l.Created > ttl) (h2 : hexDecode l.Sum.data = some (signLog H l)) :
    verifyLog H now ttl l = none := by
  unfold verifyLog
  rw [if_neg h1, h2]
  show (if signLog H l = signLog H l then none else some VErr.invalidSig) = none
  rw [if_pos rfl]

lemma verifyLog_none_iff (H : List Nat → List Nat) (now ttl : Int) (l : log) :
    verifyLog H now ttl l = none ↔
      now - l.Created ≤ ttl ∧ hexDecode l.Sum.data = some (signLog H l) := by
  constructor
  · intro h
    by_cases h1 : now - l.Created > ttl
    · rw [verifyLog_expired H now ttl l h1] at h
      exact absurd h (by simp)
    · cases h2 : hexDecode l.Sum.data with
      | none =>
        rw [verifyLog_malformed H now ttl l h1 h2] at h
        exact absurd h (by simp)
      | some s =>
        by_cases h3 : signLog H l = s
        · exact ⟨by omega, congrArg some h3.symm⟩
        · rw [verifyLog_invalid H now ttl l s h1 h2 h3] at h
          exact absurd h (by simp)
  · rintro ⟨h1, h2⟩
    exact verifyLog_ok H now ttl l (by omega) h2

lemma verifyLog_fresh_iff (H : List Nat → List Nat) (now ttl : Int) (l : log) :
    verifyLog H now ttl l ≠ some .expired ↔ now ≤ l.Created + ttl := by
  constructor
  · intro h
    by_contra hlt
    exact h (verifyLog_expired H now ttl l (by omega))
  · intro h hcontra
    have h1 : ¬now - l.Created > ttl := by omega
    cases h2 : hexDecode l.Sum.data with
    | none =>
      rw [verifyLog_malformed H now ttl l h1 h2] at hcontra
      exact absurd hcontra (by simp)
    | some s =>
      by_cases h3 : signLog H l = s
      · rw [verifyLog_ok H now ttl l h1 (h2.trans (congrArg some h3.symm))] at hcontra
        exact absurd hcontra (by simp)
      · rw [verifyLog_invalid H now ttl l s h1 h2 h3] at hcontra
        exact absurd hcontra (by simp)

/-- C1: for both message kinds, verification succeeds iff `now - Created` is
at most the TTL, the `Sum` field is valid hex, and the decoded bytes equal
the recomputed keyed digest of the other fields; otherwise the first
applicable error in the order expired, malformed signature, invalid
signature is returned; and the freshness check passes exactly at
verification times `≤ Created + ttl`. -/
theorem verify_characterization (H : List Nat → List Nat) (now ttl : Int)
    (c : cmd) (l : log) :
    (verifyCmd H now ttl c = none ↔
      now - c.Created ≤ ttl ∧ hexDecode c.Sum.data = some (signCmd H c)) ∧
    (now - c.Created > ttl → verifyCmd H now ttl c = some .expired) ∧
    (now - c.Created ≤ ttl → hexDecode c.Sum.data = none →
      verifyCmd H now ttl c = some .malformedSig) ∧
    (∀ s, now - c.Created ≤ ttl → hexDecode c.Sum.data = some s →
      signCmd H c ≠ s → verifyCmd H now ttl c = some .invalidSig) ∧
    (verifyCmd H now ttl c ≠ some .expired ↔ now ≤ c.Created + ttl) ∧
    (verifyLog H now ttl l = none ↔
      now - l.Created ≤ ttl ∧ hexDecode l.Sum.data = some (signLog H l)) ∧
    (now - l.Created > ttl → verifyLog H now ttl l = some .expired) ∧
    (now - l.Created ≤ ttl → hexDecode l.Sum.data = none →
      verifyLog H now ttl l = some .malformedSig) ∧
    (∀ s, now - l.Created ≤ ttl → hexDecode l.Sum.data = some s →
      signLog H l ≠ s → verifyLog H now ttl l = some .invalidSig) ∧
    (verifyLog H now ttl l ≠ some .expired ↔ now ≤ l.Created + ttl) := by
  refine ⟨verifyCmd_none_iff H now ttl c, verifyCmd_expired H now ttl c, ?_, ?_,
    verifyCmd_fresh_iff H now ttl c, verifyLog_none_iff H now ttl l,
    verifyLog_expired H now ttl l, ?_, ?_, verifyLog_fresh_iff H now ttl l⟩
  · intro h1 h2
    exact verifyCmd_malformed H now ttl c (by omega) h2
  · intro s h1 h2 h3
    exact verifyCmd_invalid H now ttl c s (by omega) h2 h3
  · intro h1 h2
    exact verifyLog_malformed H now ttl l (by omega) h2
  · intro s h1 h2 h3
    exact verifyLog_invalid H now ttl l s (by omega) h2 h3

/-- Command whose `Sum` is not valid hex. -/
def cmdMal : cmd := ⟨[], [], 0, "z"⟩

/-- Command whose `Sum` decodes but does not match the `H0` digest. -/
def cmdInv : cmd := ⟨[], [], 0, "00"⟩

/-- Log entry with empty message and empty (valid under `H0`) signature. -/
def log0 : log := ⟨[], "", 0⟩

/-- Witness for C1 at concrete inputs: one success, one case of each error,
and both sides of the freshness boundary at `Created + ttl`. -/
theorem verify_characterization_witness :
    verifyCmd H0 0 200000000 cmdT0 = none ∧
    verifyCmd H0 300000000 200000000 cmdT0 = some .expired ∧
    verifyCmd H0 0 200000000 cmdMal = some .malformedSig ∧
    verifyCmd H0 0 200000000 cmdInv = some .invalidSig ∧
    verifyCmd H0 200000000 200000000 cmdT0 ≠ some .expired ∧
    verifyLog H0 0 200000000 log0 = none := by
  refine ⟨((verify_characterization H0 0 200000000 cmdT0 log0).1).mpr
      ⟨by decide, rfl⟩,
    (verify_characterization H0 300000000 200000000 cmdT0 log0).2.1 (by decide),
    (verify_characterization H0 0 200000000 cmdMal log0).2.2.1 (by decide) rfl,
    (verify_characterization H0 0 200000000 cmdInv log0).2.2.2.1 [0]
      (by decide) rfl (by decide),
    ((verify_characterization H0 200000000 200000000 cmdT0 log0).2.2.2.2.1).mpr
      (by decide),
    ((verify_characterization H0 0 200000000 cmdT0 log0).2.2.2.2.2.1).mpr
      ⟨by decide, rfl⟩⟩

lemma signCmd_eq_signLog (H : List Nat → List Nat) (c : cmd) (l : log)
    (ha : c.Args = []) (hn : c.Name = l.Msg)
    (ht : Int.tdiv c.Created 1000000 = Int.tdiv l.Created 1000000) :
    signCmd H c = signLog H l := by
  rw [signCmd_eq_stream, streamCmd_eq, signLog_eq_stream, ha, hn]
  have httb : ttb c.Created = ttb l.Created := by
    unfold ttb
    rw [ht]
  rw [httb]
  simp

/-- C8: a Command with no arguments and a LogEntry whose `Msg` equals its
`Name`, created in the same millisecond, are fed the identical byte stream
and signed to the same digest; with literally corresponding fields the two
verifiers agree wholesale, so a signature valid for one message type
verifies as the other type. -/
theorem sign_cmd_log_cross_type (H : List Nat → List Nat) (c : cmd) (l : log) :
    (c.Args = [] → c.Name = l.Msg →
      Int.tdiv c.Created 1000000 = Int.tdiv l.Created 1000000 →
      signCmd H c = signLog H l) ∧
    (∀ now ttl, c.Args = [] → c.Name = l.Msg → c.Created = l.Created →
      c.Sum = l.Sum → verifyCmd H now ttl c = verifyLog H now ttl l) := by
  refine ⟨signCmd_eq_signLog H c l, ?_⟩
  intro now ttl ha hn ht hs
  have hsig := signCmd_eq_signLog H c l ha hn (by rw [ht])
  unfold verifyCmd verifyLog
  rw [ht, hs, hsig]

/-- Witness for C8: the empty no-argument command and the empty log entry at
time 0 sign identically and verify identically. -/
theorem sign_cmd_log_cross_type_witness :
    signCmd H32 cmdT0 = signLog H32 log0 ∧
    verifyCmd H32 0 200000000 cmdT0 = verifyLog H32 0 200000000 log0 := by
  exact ⟨(sign_cmd_log_cross_type H32 cmdT0 log0).1 rfl rfl rfl,
    (sign_cmd_log_cross_type H32 cmdT0 log0).2 0 200000000 rfl rfl rfl rfl⟩

/-- C4: the relay's POST `/cmd` path unconditionally overwrites the single
stored payload slot with the re-serialized accepted command, and the GET
path returns the stored bytes verbatim (any path, no re-verification): after
accepting Command A and then Command B, every GET returns exactly B's stored
serialization. -/
theorem relay_overwrite_semantics (dec : List Nat → Except String cmd)
    (decL : List Nat → Except String log) (marshal : cmd → List Nat)
    (H : List Nat → List Nat) (nowA nowB nowG : Int) (a : app)
    (bodyA bodyB : List Nat) (cA cB : cmd)
    (hA : dec bodyA = .ok cA) (hvA : verifyCmd H nowA 200000000 cA = none)
    (hB : dec bodyB = .ok cB) (hvB : verifyCmd H nowB 200000000 cB = none) :
    handlePostCmd dec marshal H nowA a bodyA = (⟨marshal cA⟩, ⟨200, .txt "ok"⟩) ∧
    handlePostCmd dec marshal H nowB ⟨marshal cA⟩ bodyB =
      (⟨marshal cB⟩, ⟨200, .txt "ok"⟩) ∧
    (∀ p rb, serveHTTP dec decL marshal H nowG ⟨marshal cB⟩ ⟨"GET", p, rb⟩ =
      (⟨marshal cB⟩, ⟨200, .raw (marshal cB)⟩)) := by
  refine ⟨?_, ?_, fun p rb => rfl⟩
  · simp [handlePostCmd, hA, hvA]
  · simp [handlePostCmd, hB, hvB]

/-- Decoder used by relay witnesses: reads the body as the command name. -/
def dec0 : List Nat → Except String cmd := fun b => .ok ⟨b, [], 0, ""⟩

/-- Log decoder used by relay witnesses. -/
def decL0 : List Nat → Except String log := fun _ => .ok log0

/-- Serializer used by relay witnesses: the command name. -/
def marshal0 : cmd → List Nat := fun c => c.Name

/-- Witness for C4: accept `[1]` then `[2]`; GET afterwards returns `[2]`,
not `[1]`. -/
theorem relay_overwrite_semantics_witness :
    handlePostCmd dec0 marshal0 H0 0 ⟨[]⟩ [1] = (⟨[1]⟩, ⟨200, .txt "ok"⟩) ∧
    handlePostCmd dec0 marshal0 H0 0 ⟨[1]⟩ [2] = (⟨[2]⟩, ⟨200, .txt "ok"⟩) ∧
    (∀ p rb, serveHTTP dec0 decL0 marshal0 H0 0 ⟨[2]⟩ ⟨"GET", p, rb⟩ =
      (⟨[2]⟩, ⟨200, .raw [2]⟩)) := by
  exact relay_overwrite_semantics dec0 decL0 marshal0 H0 0 0 0 ⟨[]⟩ [1] [2]
    ⟨[1], [], 0, ""⟩ ⟨[2], [], 0, ""⟩ rfl rfl rfl rfl

/-- C5: POST `/cmd` answers `500` (with the decoder's message) when the body
fails to decode and `401` with the verification failure reason when the
decoded command fails the 200 ms-TTL check, leaving the stored payload
unchanged in both cases; only on successful verification is the payload
replaced by the re-serialized command and `"ok"` returned. -/
theorem postCmd_error_paths (dec : List Nat → Except String cmd)
    (marshal : cmd → List Nat) (H : List Nat → List Nat) (now : Int)
    (a : app) (body : List Nat) :
    (∀ e, dec body = .error e →
      handlePostCmd dec marshal H now a body = (a, ⟨500, .txt (e ++ "\n")⟩)) ∧
    (∀ c err, dec body = .ok c → verifyCmd H now 200000000 c = some err →
      handlePostCmd dec marshal H now a body =
        (a, ⟨401, .txt (err.msg ++ "\n")⟩)) ∧
    (∀ c, dec body = .ok c → verifyCmd H now 200000000 c = none →
      handlePostCmd dec marshal H now a body =
        (⟨marshal c⟩, ⟨200, .txt "ok"⟩)) := by
  refine ⟨?_, ?_, ?_⟩
  · intro e he
    simp [handlePostCmd, he, httpError]
  · intro c err hc hv
    simp [handlePostCmd, hc, hv, httpError]
  · intro c hc hv
    simp [handlePostCmd, hc, hv]

/-- Decoder that always fails, for the C5 witness. -/
def decErr : List Nat → Except String cmd := fun _ => .error "EOF"

/-- Decoder returning an already-expired command, for the C5 witness. -/
def decExp : List Nat → Except String cmd := fun _ => .ok cmdT0

/-- Witness for C5: a decode failure answers `500` and keeps the payload, a
verification failure answers `401` with `"payload expired"` and keeps the
payload, and a success stores the new serialization and answers `"ok"`. -/
theorem postCmd_error_paths_witness :
    handlePostCmd decErr marshal0 H0 0 ⟨[7]⟩ [] = (⟨[7]⟩, ⟨500, .txt "EOF\n"⟩) ∧
    handlePostCmd decExp marshal0 H0 300000000 ⟨[7]⟩ [] =
      (⟨[7]⟩, ⟨401, .txt "payload expired\n"⟩) ∧
    handlePostCmd decExp marshal0 H0 0 ⟨[7]⟩ [] = (⟨[]⟩, ⟨200, .txt "ok"⟩) := by
  refine ⟨(postCmd_error_paths decErr marshal0 H0 0 ⟨[7]⟩ []).1 "EOF" rfl, ?_,
    (postCmd_error_paths decExp marshal0 H0 0 ⟨[7]⟩ []).2.2 cmdT0 rfl rfl⟩
  exact (postCmd_error_paths decExp marshal0 H0 300000000 ⟨[7]⟩ []).2.1 cmdT0
    .expired rfl (by decide)

/-- C9: `ServeHTTP` answers every GET — whatever the path — with the stored
payload bytes; a POST to a path other than `/cmd` and `/log`, and a request
with a method other than GET and POST, falls through the switches and gets
Go's default `200` with an empty body, with the relay state unchanged. -/
theorem serveHTTP_frame (dec : List Nat → Except String cmd)
    (decL : List Nat → Except String log) (marshal : cmd → List Nat)
    (H : List Nat → List Nat) (now : Int) (a : app) (r : Request) :
    (r.method = "GET" →
      serveHTTP dec decL marshal H now a r = (a, ⟨200, .raw a.payload⟩)) ∧
    (r.method = "POST" → r.path ≠ "/cmd" → r.path ≠ "/log" →
      serveHTTP dec decL marshal H now a r = (a, ⟨200, .raw []⟩)) ∧
    (r.method ≠ "GET" → r.method ≠ "POST" →
      serveHTTP dec decL marshal H now a r = (a, ⟨200, .raw []⟩)) := by
  refine ⟨?_, ?_, ?_⟩
  · intro hm
    unfold serveHTTP
    rw [if_pos hm]
  · intro hm hp1 hp2
    unfold serveHTTP
    rw [if_neg (by rw [hm]; decide), if_pos hm, if_neg hp1, if_neg hp2]
  · intro hm1 hm2
    unfold serveHTTP
    rw [if_neg hm1, if_neg hm2]

/-- Witness for C9: a GET of `/whatever`, a POST to `/other`, and a PUT. -/
theorem serveHTTP_frame_witness :
    serveHTTP dec0 decL0 marshal0 H0 0 ⟨[5]⟩ ⟨"GET", "/whatever", []⟩ =
      (⟨[5]⟩, ⟨200, .raw [5]⟩) ∧
    serveHTTP dec0 decL0 marshal0 H0 0 ⟨[5]⟩ ⟨"POST", "/other", []⟩ =
      (⟨[5]⟩, ⟨200, .raw []⟩) ∧
    serveHTTP dec0 decL0 marshal0 H0 0 ⟨[5]⟩ ⟨"PUT", "/", []⟩ =
      (⟨[5]⟩, ⟨200, .raw []⟩) := by
  refine ⟨(serveHTTP_frame dec0 decL0 marshal0 H0 0 ⟨[5]⟩ _).1 rfl,
    (serveHTTP_frame dec0 decL0 marshal0 H0 0 ⟨[5]⟩ _).2.1 rfl
      (by decide) (by decide),
    (serveHTTP_frame dec0 decL0 marshal0 H0 0 ⟨[5]⟩ _).2.2
      (by decide) (by decide)⟩

/-! Helper lemmas for the obey-loop step. -/

lemma obeyStep_skip (dec : List Nat → Except String cmd) (H : List Nat → List Nat)
    (now poll : Int) (st b : List Nat) (c : cmd)
    (hdec : dec b = .ok c) (hhex : hexDecode c.Sum.data = some st) :
    obeyStep dec H now poll st (.body b) = (st, none) := by
  simp [obeyStep, hdec, hhex]

lemma obeyStep_exec (dec : List Nat → Except String cmd) (H : List Nat → List Nat)
    (now poll : Int) (st b s : List Nat) (c : cmd)
    (hdec : dec b = .ok c) (hhex : hexDecode c.Sum.data = some s) (hne : s ≠ st)
    (hv : verifyCmd H now poll c = none) :
    obeyStep dec H now poll st (.body b) = (s, some c) := by
  simp [obeyStep, hdec, hhex, hne, hv]

lemma obeyStep_verify_fail (dec : List Nat → Except String cmd)
    (H : List Nat → List Nat) (now poll : Int) (st b s : List Nat) (c : cmd) (e : VErr)
    (hdec : dec b = .ok c) (hhex : hexDecode c.Sum.data = some s) (hne : s ≠ st)
    (hv : verifyCmd H now poll c = some e) :
    obeyStep dec H now poll st (.body b) = (st, none) := by
  simp [obeyStep, hdec, hhex, hne, hv]

lemma obeyStep_exec_inv (dec : List Nat → Except String cmd)
    (H : List Nat → List Nat) (now poll : Int) (st b st2 : List Nat) (c : cmd)
    (h : obeyStep dec H now poll st (.body b) = (st2, some c)) :
    dec b = .ok c ∧ hexDecode c.Sum.data = some st2 ∧ st2 ≠ st ∧
      verifyCmd H now poll c = none := by
  cases hdec : dec b with
  | error e =>
    simp [obeyStep, hdec] at h
  | ok c0 =>
    cases hhex : hexDecode c0.Sum.data with
    | none =>
      simp [obeyStep, hdec, hhex] at h
    | some s =>
      by_cases hs : s = st
      · simp [obeyStep, hdec, hhex, hs] at h
      · cases hv : verifyCmd H now poll c0 with
        | some e =>
          simp [obeyStep, hdec, hhex, hs, hv] at h
        | none =>
          have hexec := obeyStep_exec dec H now poll st b s c0 hdec hhex hs hv
          rw [hexec] at h
          injection h with h1 h2
          injection h2 with h3
          subst h1
          subst h3
          exact ⟨rfl, hhex, hs, hv⟩

/-- C6: in obey mode, a fetched command whose decoded signature bytes equal
`lastSum` is skipped — without verifying or executing and for any clock or
poll values — and an iteration that does execute a command recorded exactly
that command's signature and required it to differ from the previous one, so
the same fetch response next time is a no-op: the same command is never
executed twice in a row. -/
theorem obey_dedup_skip (dec : List Nat → Except String cmd)
    (H : List Nat → List Nat) (now poll : Int) (st b : List Nat) :
    (∀ c, dec b = .ok c → hexDecode c.Sum.data = some st →
      obeyStep dec H now poll st (.body b) = (st, none)) ∧
    (∀ st2 c, obeyStep dec H now poll st (.body b) = (st2, some c) →
      hexDecode c.Sum.data = some st2 ∧ st2 ≠ st ∧
      ∀ now2 poll2, obeyStep dec H now2 poll2 st2 (.body b) = (st2, none)) := by
  refine ⟨?_, ?_⟩
  · intro c hdec hhex
    exact obeyStep_skip dec H now poll st b c hdec hhex
  · intro st2 c h
    obtain ⟨hdec, hhex, hne, _⟩ := obeyStep_exec_inv dec H now poll st b st2 c h
    exact ⟨hhex, hne, fun now2 poll2 =>
      obeyStep_skip dec H now2 poll2 st2 b c hdec hhex⟩

/-- Decoder that reads the body as the command name, with a fixed empty
signature, for obey-mode witnesses. -/
def decN : List Nat → Except String cmd := fun b => .ok ⟨b, [], 0, ""⟩

/-- Witness for C6: with `lastSum = [9]` the command is executed and
`lastSum` becomes its decoded (empty) signature; fetching the same body
again, under a different clock and poll interval, is then skipped. -/
theorem obey_dedup_skip_witness :
    obeyStep decN H0 0 10000000000 [9] (.body [3]) = ([], some ⟨[3], [], 0, ""⟩) ∧
    hexDecode (cmd.Sum ⟨[3], [], 0, ""⟩).data = some [] ∧ ([] : List Nat) ≠ [9] ∧
    obeyStep decN H0 5 7 [] (.body [3]) = ([], none) := by
  have hexec : obeyStep decN H0 0 10000000000 [9] (.body [3]) =
      ([], some ⟨[3], [], 0, ""⟩) := by decide
  have h := (obey_dedup_skip decN H0 0 10000000000 [9] [3]).2 []
    ⟨[3], [], 0, ""⟩ hexec
  exact ⟨hexec, h.1, h.2.1, h.2.2 5 7⟩

/-- C7: an obey-mode iteration hands a command to the executor exactly when
the body decodes, the decoded signature is fresh with respect to `lastSum`,
and `verifyCmd` with TTL equal to the configured poll interval accepts it —
in which case `lastSum` is set (once) to that command's signature; a
verification failure leaves the state unchanged and executes nothing. -/
theorem obey_verify_ttl (dec : List Nat → Except String cmd)
    (H : List Nat → List Nat) (now poll : Int) (st b : List Nat) :
    (∀ st2 c, obeyStep dec H now poll st (.body b) = (st2, some c) ↔
      dec b = .ok c ∧ hexDecode c.Sum.data = some st2 ∧ st2 ≠ st ∧
      verifyCmd H now poll c = none) ∧
    (∀ c s e, dec b = .ok c → hexDecode c.Sum.data = some s → s ≠ st →
      verifyCmd H now poll c = some e →
      obeyStep dec H now poll st (.body b) = (st, none)) := by
  refine ⟨?_, ?_⟩
  · intro st2 c
    constructor
    · exact obeyStep_exec_inv dec H now poll st b st2 c
    · rintro ⟨hdec, hhex, hne, hv⟩
      exact obeyStep_exec dec H now poll st b st2 c hdec hhex hne hv
  · intro c s e hdec hhex hne hv
    exact obeyStep_verify_fail dec H now poll st b s c e hdec hhex hne hv

/-- Witness for C7: a fresh command is executed (and `lastSum` updated) when
verification with the poll-interval TTL succeeds, and skipped with the state
kept when the same command is already older than the poll interval. -/
theorem obey_verify_ttl_witness :
    obeyStep decN H0 0 10000000000 [7] (.body [4]) = ([], some ⟨[4], [], 0, ""⟩) ∧
    obeyStep decN H0 300000000 200000000 [7] (.body [4]) = ([7], none) := by
  refine ⟨((obey_verify_ttl decN H0 0 10000000000 [7] [4]).1 []
      ⟨[4], [], 0, ""⟩).mpr ⟨rfl, rfl, by decide, by decide⟩, ?_⟩
  exact (obey_verify_ttl decN H0 300000000 200000000 [7] [4]).2
    ⟨[4], [], 0, ""⟩ [] .expired rfl rfl (by decide) (by decide)

/-- C10: while `lastSum` still holds its initial empty value, a fetched
command whose `Sum` decodes to zero bytes (the empty string) is treated as a
duplicate and skipped without verification or execution, because the empty
decoded signature compares equal to the initial `lastSum` (Go `bytes.Equal`
treats nil and empty as equal). -/
theorem obey_empty_sum_initial_skip (dec : List Nat → Except String cmd)
    (H : List Nat → List Nat) (now poll : Int) (b : List Nat) :
    hexDecode ("".data) = some [] ∧
    (∀ c, dec b = .ok c → c.Sum = "" →
      obeyStep dec H now poll [] (.body b) = ([], none)) := by
  refine ⟨rfl, ?_⟩
  intro c hdec hsum
  refine obeyStep_skip dec H now poll [] b c hdec ?_
  rw [hsum]
  rfl

/-- Witness for C10: the empty-`Sum` command fetched in the initial state is
skipped. -/
theorem obey_empty_sum_initial_skip_witness :
    obeyStep decN H0 0 7 [] (.body [4]) = ([], none) := by
  exact (obey_empty_sum_initial_skip decN H0 0 7 [4]).2 ⟨[4], [], 0, ""⟩ rfl rfl
